import Mathlib

/-
Shallow embedding of src/ipyserve.py (the honchkrow notebook-session plugin
server).  Python dicts with string keys are modelled as insertion-ordered
association lists with unique keys; bytes are lists of naturals < 256; the
externally owned IPython session (run_cell, display_formatter, user_ns) is
passed in explicitly as data / functions, as the spec directs for testing.
-/

namespace IPyServe

/-- A Python dict with string keys: an insertion-ordered association list. -/
abbrev Dict (α : Type) := List (String × α)

/-- Python dict lookup d[k]: the value at the (unique) matching key, if any. -/
def dictLookup {α : Type} (k : String) : Dict α → Option α
| [] => none
| (k₁, v) :: rest => if k₁ = k then some v else dictLookup k rest

/-- Python dict assignment d[k] = v: replaces the value in place when the key
exists (keeping its position), otherwise appends the binding at the end. -/
def dictInsert {α : Type} (k : String) (v : α) : Dict α → Dict α
| [] => [(k, v)]
| (k₁, v₁) :: rest => if k₁ = k then (k, v) :: rest else (k₁, v₁) :: dictInsert k v rest

/-- Value of one character of the standard base64 alphabet (RFC 4648). -/
def b64charVal (c : Char) : Option Nat :=
  if 'A' ≤ c ∧ c ≤ 'Z' then some (c.toNat - 65)
  else if 'a' ≤ c ∧ c ≤ 'z' then some (c.toNat - 97 + 26)
  else if '0' ≤ c ∧ c ≤ '9' then some (c.toNat - 48 + 52)
  else if c = '+' then some 62
  else if c = '/' then some 63
  else none

/-- Decoding of a base64 character quad stream.  Models Python's
base64.b64decode on well-formed input (standard alphabet, length a multiple
of four, padding only at the very end); none models the binascii.Error that
b64decode raises on malformed input. -/
def b64decodeChars : List Char → Option (List Nat)
| [] => some []
| c₁ :: c₂ :: c₃ :: c₄ :: rest =>
  match b64charVal c₁, b64charVal c₂ with
  | some v₁, some v₂ =>
    if c₃ = '=' then
      if c₄ = '=' ∧ rest = [] then some [v₁ * 4 + v₂ / 16] else none
    else
      match b64charVal c₃ with
      | some v₃ =>
        if c₄ = '=' then
          if rest = [] then some [v₁ * 4 + v₂ / 16, v₂ % 16 * 16 + v₃ / 4] else none
        else
          match b64charVal c₄ with
          | some v₄ =>
            match b64decodeChars rest with
            | some tail =>
                some ((v₁ * 4 + v₂ / 16) :: (v₂ % 16 * 16 + v₃ / 4) ::
                      (v₃ % 4 * 64 + v₄) :: tail)
            | none => none
          | none => none
      | none => none
  | _, _ => none
| _ => none

/-- Python base64.b64decode applied to a str payload. -/
def b64decode (s : String) : Option (List Nat) := b64decodeChars s.data

/-- DisplayData (pydantic model): data and metadata are Optional[dict].
Payload values are modelled as strings (base64 text or substituted URL);
metadata values are likewise carried opaquely as strings. -/
structure DisplayData where
  data : Option (Dict String) := none
  metadata : Option (Dict String) := none
deriving Repr, DecidableEq

/-- DisplayData.from_tuple: builds DisplayData from the pair (data, metadata)
returned by the session's display formatter. -/
def DisplayData.from_tuple (formatted : Dict String × Dict String) : DisplayData :=
  { data := some formatted.1, metadata := some formatted.2 }

/-- A Python exception, reduced to what ErrorData.from_exception inspects:
the type name (type(e).__name__) and the string form (str(e)). -/
structure PyException where
  typeName : String
  strForm : String
deriving Repr, DecidableEq

/-- ErrorData (pydantic model): a single error string. -/
structure ErrorData where
  error : String
deriving Repr, DecidableEq

/-- ErrorData.from_exception: str(e) if it is non-empty, else the type name. -/
def ErrorData.from_exception (e : PyException) : ErrorData :=
  { error := if e.strForm = "" then e.typeName else e.strForm }

/-- The in-memory image store: a process-wide dict from generated name to
raw bytes. -/
abbrev ImageStore := Dict (List Nat)

/-- The name generated for the image inserted when the store has n entries:
the Python f-string image-{n}.png with n printed in decimal. -/
def imageName (n : Nat) : String := "image-" ++ Nat.repr n ++ ".png"

/-- store_images: when the artifact's data dict is present (truthy) and holds
an image/png entry, decode that payload from base64, register the bytes in
the image store under the next generated name, and replace the entry's value
by the absolute URL of the image route.  Non-image entries and metadata are
untouched.  none models the binascii.Error raised on an undecodable payload
(raised before the store or the artifact is modified).  A present-but-empty
data dict is falsy in Python, but it cannot hold the key, so the key-lookup
test alone is faithful. -/
def store_images (dd : DisplayData) (store : ImageStore) :
    Option (DisplayData × ImageStore) :=
  match dd.data with
  | none => some (dd, store)
  | some d =>
    match dictLookup "image/png" d with
    | none => some (dd, store)
    | some payload =>
      match b64decode payload with
      | none => none
      | some bytes =>
        let name := imageName store.length
        some ({ dd with
                  data := some (dictInsert "image/png"
                    ("http://localhost:8000/images/" ++ name) d) },
              dictInsert name bytes store)

/-- RunCellResponse (pydantic model) with its field defaults: success False,
execute_result None, error and stdout and stderr the empty string, displays
the empty list. -/
structure RunCellResponse where
  success : Bool := false
  execute_result : Option DisplayData := none
  error : Option String := some ""
  stdout : Option String := some ""
  stderr : Option String := some ""
  displays : List DisplayData := []
deriving Repr, DecidableEq

/-- The list comprehension [store_images(d) for d in displays], threading the
image store left to right; none propagates a decode failure. -/
def storeImagesList : List DisplayData → ImageStore →
    Option (List DisplayData × ImageStore)
| [], store => some ([], store)
| d :: ds, store =>
  match store_images d store with
  | none => none
  | some (d₁, store₁) =>
    match storeImagesList ds store₁ with
    | none => none
    | some (ds₁, store₂) => some (d₁ :: ds₁, store₂)

/-- RunCellResponse.from_result: formats the execution result with the
session's display formatter (passed in as fmt), rebuilds the captured
display outputs, relocates their image/png payloads into the store (the
displays first, then the execute result, matching source order), and fills
the success envelope.  The error field keeps its default empty string. -/
def RunCellResponse.from_result {α : Type} (fmt : α → Dict String × Dict String)
    (result : α) (stdout stderr : String) (displays : List DisplayData)
    (store : ImageStore) : Option (RunCellResponse × ImageStore) :=
  let execute_result := DisplayData.from_tuple (fmt result)
  match storeImagesList displays store with
  | none => none
  | some (displays₁, store₁) =>
    match store_images execute_result store₁ with
    | none => none
    | some (er, store₂) =>
      some ({ success := true, execute_result := some er,
              stdout := some stdout, stderr := some stderr,
              displays := displays₁ }, store₂)

/-- RunCellResponse.from_error: the failure envelope.  Only success and error
are set (the result=None keyword in the source names no field of the model
and is ignored by pydantic); every other field keeps its default, so the
captured stdout and stderr are not part of the failure envelope. -/
def RunCellResponse.from_error (error : String) : RunCellResponse :=
  { success := false, error := some ("Error executing code: " ++ error) }

/-- The outcome of ip.run_cell as the execute route reads it: the success
flag, the direct result value, and str(result.error_in_exec). -/
structure CellResult (α : Type) where
  success : Bool
  result : α
  error_in_exec : String

/-- What one run of the body of the execute route observes: either run_cell
returned and the capture context recorded stdout, stderr and the display
outputs, or an exception escaped (raised carries its str form) and is
handled by the route's except branch. -/
inductive CaptureOutcome (α : Type) where
| ok (result : CellResult α) (stdout stderr : String) (outputs : List DisplayData)
| raised (e : String)

/-- The POST /api/run_cell handler body: branch on run_cell's success flag,
build the envelope, and convert any escaped exception into a failure
envelope.  none abstracts the case where response assembly itself raises (an
undecodable image payload) and the except branch answers with an error text
taken from the raised library exception, which is outside this model. -/
def execute {α : Type} (fmt : α → Dict String × Dict String)
    (oc : CaptureOutcome α) (store : ImageStore) :
    Option (RunCellResponse × ImageStore) :=
  match oc with
  | .raised e =>
    some ({ success := false, error := some ("Error executing code: " ++ e) }, store)
  | .ok res stdout stderr outputs =>
    if res.success then
      RunCellResponse.from_result fmt res.result stdout stderr outputs store
    else
      some (RunCellResponse.from_error res.error_in_exec, store)

/-- What the GET /images/name handler returns: either a raw binary response
with media type image/png, or the in-band ErrorData payload. -/
inductive ImageResponse where
| ok (bytes : List Nat)
| err (e : ErrorData)
deriving Repr, DecidableEq

/-- The str form of KeyError(k) for a key that repr prints verbatim: the key
in single quotes.  The names this server generates and the identifier-like
variable names of the lookup routes contain no characters that repr would
escape. -/
def keyErrorStr (k : String) : String := "'" ++ k ++ "'"

/-- The GET /images/name handler: returns the stored bytes, and on a missing
name catches the KeyError and answers with ErrorData.from_exception. -/
def get_image (image_name : String) (store : ImageStore) : ImageResponse :=
  match dictLookup image_name store with
  | some bytes => ImageResponse.ok bytes
  | none =>
    ImageResponse.err (ErrorData.from_exception ⟨"KeyError", keyErrorStr image_name⟩)

/-- What the GET /api/variable/name handler returns: the formatted display
data, or the in-band ErrorData payload. -/
inductive VariableResponse where
| display (d : DisplayData)
| err (e : ErrorData)
deriving Repr, DecidableEq

/-- The GET /api/variable/name handler: looks the name up in the session's
user_ns (passed in, as the spec directs), formats the value with the
session's display formatter, and on a missing name catches the KeyError and
answers with ErrorData.from_exception. -/
def get_variable {α : Type} (user_ns : Dict α)
    (fmt : α → Dict String × Dict String) (variable_name : String) :
    VariableResponse :=
  match dictLookup variable_name user_ns with
  | some value => VariableResponse.display (DisplayData.from_tuple (fmt value))
  | none =>
    VariableResponse.err (ErrorData.from_exception ⟨"KeyError", keyErrorStr variable_name⟩)

/-- A JSON value, enough to write down the plugin manifest literal. -/
inductive Json where
| str (s : String)
| bool (b : Bool)
| obj (fields : List (String × Json))

/-- The GET /.well-known/ai-plugin.json handler: a dict literal.  It is given
the process state (the image store, the only mutable state of the module) as
an argument to express that it reads none of it. -/
def get_ai_plugin_json (store : ImageStore) : Json :=
  Json.obj
    [("schema_version", Json.str "v1"),
     ("name_for_human", Json.str "Notebook Session"),
     ("name_for_model", Json.str "notebook_session"),
     ("description_for_human",
      Json.str "Allow ChatGPT to play with data in your running Jupyter notebook server."),
     ("description_for_model",
      Json.str "Plugin for playing with data in a jupyter notebook. You can inspect variables and run code."),
     ("auth", Json.obj [("type", Json.str "none")]),
     ("api", Json.obj
       [("type", Json.str "openapi"),
        ("url", Json.str "http://localhost:8000/openapi.json"),
        ("is_user_authenticated", Json.bool false)]),
     ("logo_url", Json.str "http://localhost:8000/logo.png"),
     ("contact_email", Json.str "rgbkrk@gmail.com"),
     ("legal_info_url", Json.str "https://github.com/rgbkrk/honchkrow/issues")]

/-! Injectivity of the decimal representation used by the generated image
names.  Nat.repr is evaluated by Nat.toDigitsCore with fuel; we recover the
represented number by folding the digit characters back. -/

/-- Numeric value of a most-significant-first list of decimal digit
characters. -/
def decValue (l : List Char) : Nat :=
  l.foldl (fun a c => a * 10 + (c.toNat - 48)) 0

theorem decValue_append_singleton (l : List Char) (c : Char) :
    decValue (l ++ [c]) = decValue l * 10 + (c.toNat - 48) := by
  simp [decValue, List.foldl_append]

theorem digitChar_toNat (d : Nat) (h : d < 10) : (Nat.digitChar d).toNat = 48 + d := by
  interval_cases d <;> rfl

theorem toDigitsCore_accum (b : Nat) : ∀ (f n : Nat) (l : List Char),
    Nat.toDigitsCore b f n l = Nat.toDigitsCore b f n [] ++ l := by
  intro f
  induction f with
  | zero => intro n l; simp [Nat.toDigitsCore]
  | succ f ih =>
    intro n l
    by_cases h : n / b = 0 <;> simp only [Nat.toDigitsCore, h, if_true, if_false]
    · simp
    · rw [ih (n / b) (Nat.digitChar (n % b) :: l), ih (n / b) [Nat.digitChar (n % b)]]
      simp

theorem toDigitsCore_fuel (n : Nat) : ∀ f g : Nat, n < f → n < g →
    Nat.toDigitsCore 10 f n [] = Nat.toDigitsCore 10 g n [] := by
  induction n using Nat.strong_induction_on with
  | _ n ih =>
    intro f g hf hg
    match f, g with
    | f + 1, g + 1 =>
      by_cases h : n / 10 = 0 <;>
        simp only [Nat.toDigitsCore, h, if_true, if_false]
      have hn : 0 < n := by
        rcases Nat.eq_zero_or_pos n with h0 | h0
        · subst h0; simp at h
        · exact h0
      have hlt : n / 10 < n := Nat.div_lt_self hn (by norm_num)
      rw [toDigitsCore_accum 10 f (n / 10), toDigitsCore_accum 10 g (n / 10)]
      rw [ih (n / 10) hlt f g (by omega) (by omega)]

theorem toDigitsCore_succ (b f n : Nat) (l : List Char) :
    Nat.toDigitsCore b (f + 1) n l =
      if n / b = 0 then Nat.digitChar (n % b) :: l
      else Nat.toDigitsCore b f (n / b) (Nat.digitChar (n % b) :: l) := rfl

theorem toDigits_ten (n : Nat) :
    Nat.toDigits 10 n = if n < 10 then [Nat.digitChar n]
      else Nat.toDigits 10 (n / 10) ++ [Nat.digitChar (n % 10)] := by
  by_cases h : n < 10
  · have h0 : n / 10 = 0 := Nat.div_eq_of_lt h
    have hm : n % 10 = n := Nat.mod_eq_of_lt h
    simp [Nat.toDigits, Nat.toDigitsCore, h0, hm, h]
  · have h0 : n / 10 ≠ 0 := by
      intro hc
      exact h ((Nat.div_eq_zero_iff (by norm_num)).mp hc)
    have hlt : n / 10 < n := Nat.div_lt_self (by omega) (by norm_num)
    rw [if_neg h, Nat.toDigits, toDigitsCore_succ, if_neg h0,
      toDigitsCore_accum 10 n (n / 10),
      toDigitsCore_fuel (n / 10) n (n / 10 + 1) hlt (Nat.lt_succ_self _)]
    rfl

theorem decValue_toDigits (n : Nat) : decValue (Nat.toDigits 10 n) = n := by
  induction n using Nat.strong_induction_on with
  | _ n ih =>
    rw [toDigits_ten]
    by_cases h : n < 10
    · simp only [h, if_true]
      simp [decValue, digitChar_toNat n h]
    · have hn : 0 < n := by omega
      have hlt : n / 10 < n := Nat.div_lt_self hn (by norm_num)
      simp only [h, if_false]
      rw [decValue_append_singleton, ih (n / 10) hlt,
        digitChar_toNat (n % 10) (Nat.mod_lt n (by norm_num))]
      omega

theorem repr_data_inj {m n : Nat} (h : (Nat.repr m).data = (Nat.repr n).data) :
    m = n := by
  have hd : Nat.toDigits 10 m = Nat.toDigits 10 n := by
    simpa [Nat.repr, List.asString] using h
  have := congrArg decValue hd
  simpa [decValue_toDigits] using this

theorem imageName_injective : Function.Injective imageName := by
  intro m n h
  apply repr_data_inj
  have hd := congrArg String.data h
  simp only [imageName, String.data_append] at hd
  have h₁ := List.append_cancel_right hd
  exact List.append_cancel_left h₁

/-! Dictionary lemmas. -/

theorem dictLookup_insert_self {α : Type} (k : String) (v : α) (d : Dict α) :
    dictLookup k (dictInsert k v d) = some v := by
  induction d with
  | nil => simp [dictInsert, dictLookup]
  | cons hd tl ih =>
    by_cases h : hd.1 = k <;>
      simp [dictInsert, dictLookup, h, ih]

theorem dictLookup_insert_ne {α : Type} (k k₁ : String) (v : α) (d : Dict α)
    (h : k₁ ≠ k) : dictLookup k₁ (dictInsert k v d) = dictLookup k₁ d := by
  induction d with
  | nil => simp [dictInsert, dictLookup, Ne.symm h]
  | cons hd tl ih =>
    by_cases h₂ : hd.1 = k
    · simp [dictInsert, dictLookup, h₂, Ne.symm h]
    · by_cases h₃ : hd.1 = k₁ <;> simp [dictInsert, dictLookup, h₂, h₃, h, ih]

theorem dictInsert_fresh {α : Type} (k : String) (v : α) (d : Dict α)
    (h : dictLookup k d = none) : dictInsert k v d = d ++ [(k, v)] := by
  induction d with
  | nil => simp [dictInsert]
  | cons hd tl ih =>
    by_cases h₂ : hd.1 = k
    · simp [dictLookup, h₂] at h
    · simp [dictLookup, h₂] at h
      simp [dictInsert, h₂, ih h]

theorem dictLookup_append_right {α : Type} (k : String) (v : α) (d : Dict α)
    (h : dictLookup k d = none) : dictLookup k (d ++ [(k, v)]) = some v := by
  induction d with
  | nil => simp [dictLookup]
  | cons hd tl ih =>
    by_cases h₂ : hd.1 = k
    · simp [dictLookup, h₂] at h
    · simp [dictLookup, h₂] at h ⊢
      exact ih h

/-! The shape of the image store after a run of sequential registrations. -/

/-- The image store holding the byte lists bs registered in order, the first
under name index k. -/
def canonicalFrom : Nat → List (List Nat) → ImageStore
| _, [] => []
| k, b :: bs => (imageName k, b) :: canonicalFrom (k + 1) bs

theorem canonicalFrom_length (k : Nat) (bs : List (List Nat)) :
    (canonicalFrom k bs).length = bs.length := by
  induction bs generalizing k with
  | nil => rfl
  | cons b bs ih => simp [canonicalFrom, ih]

theorem canonicalFrom_snoc (k : Nat) (bs : List (List Nat)) (b : List Nat) :
    canonicalFrom k (bs ++ [b]) =
      canonicalFrom k bs ++ [(imageName (k + bs.length), b)] := by
  induction bs generalizing k with
  | nil => simp [canonicalFrom]
  | cons b₁ bs ih =>
    show (imageName k, b₁) :: canonicalFrom (k + 1) (bs ++ [b]) = _
    rw [ih (k + 1)]
    simp only [canonicalFrom, List.length_cons, List.cons_append]
    rw [show k + 1 + bs.length = k + (bs.length + 1) from by omega]

theorem canonicalFrom_keys (k : Nat) (bs : List (List Nat)) :
    (canonicalFrom k bs).map Prod.fst = (List.range' k bs.length).map imageName := by
  induction bs generalizing k with
  | nil => rfl
  | cons b bs ih => simp [canonicalFrom, List.range', ih]

theorem canonicalFrom_lookup_ge (k m : Nat) (bs : List (List Nat))
    (h : k + bs.length ≤ m) :
    dictLookup (imageName m) (canonicalFrom k bs) = none := by
  induction bs generalizing k with
  | nil => rfl
  | cons b bs ih =>
    have hne : imageName k ≠ imageName m := by
      intro he
      have := imageName_injective he
      simp at h
      omega
    simp only [canonicalFrom, dictLookup, if_neg hne]
    exact ih (k + 1) (by simp at h ⊢; omega)

theorem canonicalFrom_lookup (k i : Nat) (bs : List (List Nat))
    (h : i < bs.length) :
    dictLookup (imageName (k + i)) (canonicalFrom k bs) = bs.get? i := by
  induction bs generalizing k i with
  | nil => simp at h
  | cons b bs ih =>
    cases i with
    | zero => simp [canonicalFrom, dictLookup]
    | succ i =>
      have hne : imageName k ≠ imageName (k + (i + 1)) := by
        intro he
        have := imageName_injective he
        omega
      simp only [canonicalFrom, dictLookup, if_neg hne]
      have := ih (k + 1) i (by simp at h; omega)
      rw [show k + 1 + i = k + (i + 1) by omega] at this
      simpa using this

/-- Registration of a sequence of image/png payloads through the Display
Serializer: each payload is wrapped as a display artifact whose data dict
holds the single image/png entry, and the artifacts are serialized in
order, threading the image store. -/
def registerImages : List String → ImageStore → Option ImageStore
| [], store => some store
| p :: ps, store =>
  match store_images { data := some [("image/png", p)] } store with
  | none => none
  | some (_, store₁) => registerImages ps store₁

/-- Evaluation of store_images on an artifact holding exactly one image/png
payload that decodes to bytes. -/
theorem store_images_png (p : String) (bytes : List Nat) (store : ImageStore)
    (hb : b64decode p = some bytes) :
    store_images { data := some [("image/png", p)] } store =
      some ({ data := some [("image/png",
                "http://localhost:8000/images/" ++ imageName store.length)] },
            dictInsert (imageName store.length) bytes store) := by
  simp [store_images, dictLookup, hb, dictInsert]

theorem registerImages_canonical (ps : List String) :
    ∀ bs : List (List Nat), (∀ p ∈ ps, (b64decode p).isSome) →
    registerImages ps (canonicalFrom 0 bs) =
      some (canonicalFrom 0 (bs ++ ps.map (fun p => (b64decode p).getD []))) := by
  induction ps with
  | nil => intro bs _; simp [registerImages]
  | cons p ps ih =>
    intro bs hv
    obtain ⟨bytes, hb⟩ := Option.isSome_iff_exists.mp (hv p (by simp))
    have hfresh : dictLookup (imageName bs.length) (canonicalFrom 0 bs) = none := by
      apply canonicalFrom_lookup_ge
      simp
    have hlen : (canonicalFrom 0 bs).length = bs.length := canonicalFrom_length 0 bs
    rw [registerImages, store_images_png p bytes _ hb, hlen,
      dictInsert_fresh _ _ _ hfresh]
    have hsnoc := canonicalFrom_snoc 0 bs bytes
    rw [Nat.zero_add] at hsnoc
    rw [← hsnoc]
    have hrec := ih (bs ++ [bytes]) (fun q hq => hv q (by simp [hq]))
    show registerImages ps (canonicalFrom 0 (bs ++ [bytes])) = _
    rw [hrec, List.append_assoc]
    simp [hb]

theorem append_ne_empty_of_left (a b : String) (h : a.length ≠ 0) :
    a ++ b ≠ "" := by
  intro he
  have hl := congrArg String.length he
  rw [String.length_append] at hl
  have h0 : ("" : String).length = 0 := rfl
  omega

theorem keyErrorStr_ne_empty (s : String) : keyErrorStr s ≠ "" := by
  unfold keyErrorStr
  apply append_ne_empty_of_left
  rw [String.length_append]
  have h1 : ("'" : String).length = 1 := rfl
  omega

/-- C10: for every exception, ErrorData.from_exception produces the
exception's string form when it is non-empty, otherwise the exception's
type name; since Python type names are non-empty, the resulting error
string is non-empty. -/
theorem from_exception_error (e : PyException) (h : e.typeName ≠ "") :
    (ErrorData.from_exception e).error =
      (if e.strForm = "" then e.typeName else e.strForm) ∧
    (ErrorData.from_exception e).error ≠ "" := by
  refine ⟨rfl, ?_⟩
  unfold ErrorData.from_exception
  by_cases hs : e.strForm = "" <;> simp [hs, h]

theorem from_exception_error_witness :
    (PyException.mk "ValueError" "").typeName ≠ "" ∧
    ((ErrorData.from_exception (PyException.mk "ValueError" "")).error =
      (if (PyException.mk "ValueError" "").strForm = ""
        then (PyException.mk "ValueError" "").typeName
        else (PyException.mk "ValueError" "").strForm) ∧
     (ErrorData.from_exception (PyException.mk "ValueError" "")).error ≠ "") :=
  ⟨by decide, from_exception_error (PyException.mk "ValueError" "") (by decide)⟩

/-- C5: fetching a name absent from the image store returns the in-band
ErrorData payload (built from the caught KeyError, whose message is
non-empty); get_image is a total function of the name and the store, so no
fault escapes the handler. -/
theorem get_image_missing (name : String) (store : ImageStore)
    (h : dictLookup name store = none) :
    get_image name store = ImageResponse.err ⟨keyErrorStr name⟩ ∧
    keyErrorStr name ≠ "" := by
  constructor
  · unfold get_image
    rw [h]
    unfold ErrorData.from_exception
    simp [keyErrorStr_ne_empty name]
  · exact keyErrorStr_ne_empty name

theorem get_image_missing_witness :
    dictLookup "missing.png" ([] : ImageStore) = none ∧
    (get_image "missing.png" ([] : ImageStore) =
      ImageResponse.err ⟨keyErrorStr "missing.png"⟩ ∧
     keyErrorStr "missing.png" ≠ "") :=
  ⟨rfl, get_image_missing "missing.png" [] rfl⟩

/-- C8: looking up a name absent from the session's namespace returns a
normal response payload, the ErrorData whose message is the missing name in
quotes (the str of the caught KeyError); get_variable is a total function
of the namespace, the formatter and the name, so the caller distinguishes
the DisplayData shape from the ErrorData shape, never sees a raised
fault. -/
theorem get_variable_missing {α : Type} (user_ns : Dict α)
    (fmt : α → Dict String × Dict String) (name : String)
    (h : dictLookup name user_ns = none) :
    get_variable user_ns fmt name =
      VariableResponse.err ⟨"'" ++ name ++ "'"⟩ := by
  unfold get_variable
  rw [h]
  unfold ErrorData.from_exception
  simp only [if_neg (keyErrorStr_ne_empty name)]
  rfl

theorem get_variable_missing_witness :
    dictLookup "y" ([("x", 42)] : Dict Nat) = none ∧
    get_variable ([("x", 42)] : Dict Nat)
        (fun v => ([("text/plain", Nat.repr v)], [])) "y" =
      VariableResponse.err ⟨"'" ++ "y" ++ "'"⟩ :=
  ⟨by decide, get_variable_missing _ _ "y" (by decide)⟩

/-- C9: the plugin manifest handler is a constant function of the process
state; any two fetches return the same manifest, whatever happened to the
image store in between. -/
theorem manifest_deterministic (s t : ImageStore) :
    get_ai_plugin_json s = get_ai_plugin_json t := rfl

/-- C1: when run_cell reports success and response assembly succeeds (every
image/png payload decodes, which the session's display formatter
guarantees), the envelope has success true and its error field holds the
empty-string field default, never set on this path. -/
theorem run_cell_success_envelope {α : Type} (fmt : α → Dict String × Dict String)
    (res : CellResult α) (stdout stderr : String) (outputs : List DisplayData)
    (store store₁ : ImageStore) (resp : RunCellResponse)
    (hs : res.success = true)
    (h : execute fmt (CaptureOutcome.ok res stdout stderr outputs) store =
      some (resp, store₁)) :
    resp.success = true ∧ resp.error = some "" := by
  simp only [execute, hs] at h
  simp only [if_true] at h
  unfold RunCellResponse.from_result at h
  cases hsl : storeImagesList outputs store with
  | none => simp [hsl] at h
  | some pair =>
    obtain ⟨ds₁, store₂⟩ := pair
    simp only [hsl] at h
    cases hsi : store_images (DisplayData.from_tuple (fmt res.result)) store₂ with
    | none => simp [hsi] at h
    | some pr =>
      obtain ⟨er, store₃⟩ := pr
      simp only [hsi] at h
      rw [Option.some.injEq, Prod.mk.injEq] at h
      obtain ⟨h₁, h₂⟩ := h
      rw [← h₁]
      exact ⟨rfl, rfl⟩

theorem run_cell_success_envelope_witness :
    (CellResult.mk true () "" : CellResult Unit).success = true ∧
    execute (fun _ : Unit => ([], [])) (CaptureOutcome.ok ⟨true, (), ""⟩ "out" "err" [])
        ([] : ImageStore) =
      some ({ success := true, execute_result := some ⟨some [], some []⟩,
              stdout := some "out", stderr := some "err", displays := [] }, []) ∧
    ({ success := true, execute_result := some ⟨some [], some []⟩,
       stdout := some "out", stderr := some "err",
       displays := [] } : RunCellResponse).success = true ∧
    ({ success := true, execute_result := some ⟨some [], some []⟩,
       stdout := some "out", stderr := some "err",
       displays := [] } : RunCellResponse).error = some "" :=
  ⟨rfl, by decide,
   run_cell_success_envelope (fun _ : Unit => ([], [])) ⟨true, (), ""⟩ "out" "err" []
    [] [] _ rfl (by decide)⟩

/-- C2: when run_cell reports failure, the route returns exactly the
from_error envelope: success false, execute_result absent, and a non-empty
error string carrying the fixed prefix and the execution error. -/
theorem run_cell_failure_envelope {α : Type} (fmt : α → Dict String × Dict String)
    (res : CellResult α) (stdout stderr : String) (outputs : List DisplayData)
    (store : ImageStore) (hs : res.success = false) :
    execute fmt (CaptureOutcome.ok res stdout stderr outputs) store =
      some (RunCellResponse.from_error res.error_in_exec, store) ∧
    (RunCellResponse.from_error res.error_in_exec).success = false ∧
    (RunCellResponse.from_error res.error_in_exec).execute_result = none ∧
    ∃ msg, (RunCellResponse.from_error res.error_in_exec).error = some msg ∧
      msg ≠ "" := by
  refine ⟨?_, rfl, rfl, "Error executing code: " ++ res.error_in_exec, rfl, ?_⟩
  · simp only [execute, hs]
    rw [if_neg Bool.false_ne_true]
  · apply append_ne_empty_of_left
    have h₁ : ("Error executing code: " : String).length = 22 := rfl
    omega

theorem run_cell_failure_envelope_witness :
    (CellResult.mk false () "boom" : CellResult Unit).success = false ∧
    (execute (fun _ : Unit => ([], []))
        (CaptureOutcome.ok ⟨false, (), "boom"⟩ "o" "e" []) ([] : ImageStore) =
      some (RunCellResponse.from_error "boom", []) ∧
     (RunCellResponse.from_error "boom").success = false ∧
     (RunCellResponse.from_error "boom").execute_result = none ∧
     ∃ msg, (RunCellResponse.from_error "boom").error = some msg ∧ msg ≠ "") :=
  ⟨rfl, run_cell_failure_envelope (fun _ : Unit => ([], [])) ⟨false, (), "boom"⟩
    "o" "e" [] [] rfl⟩

/-- C3 as stated fails on the code: run_cell reports failure with text
captured on stdout and stderr, and the returned envelope carries the
empty-string defaults instead of the captured text, because from_error
receives only the error and leaves every other field at its default. -/
theorem run_cell_failure_output_counterexample :
    execute (fun _ : Unit => ([], []))
        (CaptureOutcome.ok ⟨false, (), "boom"⟩ "partial out" "partial err" [])
        ([] : ImageStore) =
      some (RunCellResponse.from_error "boom", []) ∧
    (RunCellResponse.from_error "boom").stdout = some "" ∧
    (RunCellResponse.from_error "boom").stderr = some "" ∧
    ("" : String) ≠ "partial out" ∧ ("" : String) ≠ "partial err" := by
  exact ⟨by decide, rfl, rfl, by decide, by decide⟩

/-- C3 amended: on execution failure the envelope discards the captured
output entirely: its stdout and stderr are the empty-string field defaults
whatever text was captured before the failure. -/
theorem run_cell_failure_discards_output {α : Type}
    (fmt : α → Dict String × Dict String) (res : CellResult α)
    (stdout stderr : String) (outputs : List DisplayData)
    (store : ImageStore) (hs : res.success = false) :
    execute fmt (CaptureOutcome.ok res stdout stderr outputs) store =
      some (RunCellResponse.from_error res.error_in_exec, store) ∧
    (RunCellResponse.from_error res.error_in_exec).stdout = some "" ∧
    (RunCellResponse.from_error res.error_in_exec).stderr = some "" := by
  refine ⟨?_, rfl, rfl⟩
  simp only [execute, hs]
  rw [if_neg Bool.false_ne_true]

theorem run_cell_failure_discards_output_witness :
    (CellResult.mk false () "boom" : CellResult Unit).success = false ∧
    (execute (fun _ : Unit => ([], []))
        (CaptureOutcome.ok ⟨false, (), "boom"⟩ "captured" "also captured" [])
        ([] : ImageStore) =
      some (RunCellResponse.from_error "boom", []) ∧
     (RunCellResponse.from_error "boom").stdout = some "" ∧
     (RunCellResponse.from_error "boom").stderr = some "") :=
  ⟨rfl, run_cell_failure_discards_output (fun _ : Unit => ([], []))
    ⟨false, (), "boom"⟩ "captured" "also captured" [] [] rfl⟩

/-! Branchwise evaluation of store_images. -/

theorem store_images_none_data (dd : DisplayData) (store : ImageStore)
    (h : dd.data = none) : store_images dd store = some (dd, store) := by
  simp only [store_images, h]

theorem store_images_no_png (dd : DisplayData) (store : ImageStore)
    (d : Dict String) (h : dd.data = some d)
    (h₂ : dictLookup "image/png" d = none) :
    store_images dd store = some (dd, store) := by
  simp only [store_images, h, h₂]

theorem store_images_some_png (dd : DisplayData) (store : ImageStore)
    (d : Dict String) (payload : String) (bytes : List Nat)
    (h : dd.data = some d) (h₂ : dictLookup "image/png" d = some payload)
    (h₃ : b64decode payload = some bytes) :
    store_images dd store =
      some ({ dd with data := some (dictInsert "image/png"
               ("http://localhost:8000/images/" ++ imageName store.length) d) },
            dictInsert (imageName store.length) bytes store) := by
  simp only [store_images, h, h₂, h₃]

theorem store_images_decode_fail (dd : DisplayData) (store : ImageStore)
    (d : Dict String) (payload : String) (h : dd.data = some d)
    (h₂ : dictLookup "image/png" d = some payload)
    (h₃ : b64decode payload = none) : store_images dd store = none := by
  simp only [store_images, h, h₂, h₃]

/-- C6: whenever store_images returns (whatever the store), the metadata
mapping is unchanged and every payload entry under a key other than
image/png is unchanged; in this functional model the returned artifact and
returned store are the function's only outputs, so the image store is the
only other state it touches. -/
theorem store_images_frame (dd dd₁ : DisplayData) (store store₁ : ImageStore)
    (h : store_images dd store = some (dd₁, store₁)) :
    dd₁.metadata = dd.metadata ∧
    ∀ k, k ≠ "image/png" →
      dd₁.data.bind (dictLookup k) = dd.data.bind (dictLookup k) := by
  cases hd : dd.data with
  | none =>
    rw [store_images_none_data dd store hd, Option.some.injEq, Prod.mk.injEq] at h
    obtain ⟨h₁, h₂⟩ := h
    rw [← h₁]
    exact ⟨rfl, fun k hk => by rw [hd]⟩
  | some d =>
    cases hl : dictLookup "image/png" d with
    | none =>
      rw [store_images_no_png dd store d hd hl, Option.some.injEq, Prod.mk.injEq] at h
      obtain ⟨h₁, h₂⟩ := h
      rw [← h₁]
      exact ⟨rfl, fun k hk => by rw [hd]⟩
    | some payload =>
      cases hb : b64decode payload with
      | none =>
        rw [store_images_decode_fail dd store d payload hd hl hb] at h
        exact absurd h (by simp)
      | some bytes =>
        rw [store_images_some_png dd store d payload bytes hd hl hb,
          Option.some.injEq, Prod.mk.injEq] at h
        obtain ⟨h₁, h₂⟩ := h
        rw [← h₁]
        refine ⟨rfl, fun k hk => ?_⟩
        simpa using dictLookup_insert_ne _ _ _ _ hk

theorem store_images_frame_witness :
    store_images ⟨some [("text/plain", "42")], some [("meta", "v")]⟩
        ([] : ImageStore) =
      some (⟨some [("text/plain", "42")], some [("meta", "v")]⟩, []) ∧
    ((⟨some [("text/plain", "42")], some [("meta", "v")]⟩ : DisplayData).metadata =
      (⟨some [("text/plain", "42")], some [("meta", "v")]⟩ : DisplayData).metadata ∧
     ∀ k, k ≠ "image/png" →
      ((⟨some [("text/plain", "42")], some [("meta", "v")]⟩ : DisplayData).data.bind
        (dictLookup k)) =
      ((⟨some [("text/plain", "42")], some [("meta", "v")]⟩ : DisplayData).data.bind
        (dictLookup k))) :=
  ⟨by decide, store_images_frame _ _ [] [] (by decide)⟩

/-- C7 as stated fails on the code: the image/png entry is not replaced by
the bare fetch path /images/image-0.png but by the absolute URL of the
image route, http://localhost:8000/images/image-0.png. -/
theorem store_images_path_counterexample :
    store_images ⟨some [("image/png", "QUJD")], none⟩ ([] : ImageStore) =
      some (⟨some [("image/png", "http://localhost:8000/images/image-0.png")], none⟩,
            [("image-0.png", [65, 66, 67])]) ∧
    ("http://localhost:8000/images/image-0.png" : String) ≠ "/images/image-0.png" := by
  exact ⟨by decide, by decide⟩

/-- C7 amended: serialization replaces the image/png value with the absolute
URL http://localhost:8000/images/name of the generated name (whose path
component is the fetch path /images/name) and registers the base64-decoded
bytes in the store under that same name, so fetching the generated name
returns exactly the decoded bytes.  Freshness of the generated name holds
for every store reachable by registrations, whose keys are image-0.png up
to image-(n-1).png. -/
theorem store_images_url_substitution (dd : DisplayData) (store : ImageStore)
    (d : Dict String) (payload : String) (bytes : List Nat)
    (hdata : dd.data = some d)
    (hpng : dictLookup "image/png" d = some payload)
    (hdec : b64decode payload = some bytes)
    (hfresh : dictLookup (imageName store.length) store = none) :
    ∃ dd₁ store₁, store_images dd store = some (dd₁, store₁) ∧
      dd₁.data = some (dictInsert "image/png"
        ("http://localhost:8000/images/" ++ imageName store.length) d) ∧
      dictLookup "image/png" (dictInsert "image/png"
        ("http://localhost:8000/images/" ++ imageName store.length) d) =
        some ("http://localhost:8000/images/" ++ imageName store.length) ∧
      store₁ = store ++ [(imageName store.length, bytes)] ∧
      get_image (imageName store.length) store₁ = ImageResponse.ok bytes := by
  refine ⟨_, _, store_images_some_png dd store d payload bytes hdata hpng hdec,
    rfl, dictLookup_insert_self _ _ _, dictInsert_fresh _ _ _ hfresh, ?_⟩
  unfold get_image
  rw [dictLookup_insert_self]

theorem store_images_url_substitution_witness :
    ((⟨some [("image/png", "QUJD")], none⟩ : DisplayData).data =
      some [("image/png", "QUJD")]) ∧
    dictLookup "image/png" [("image/png", "QUJD")] = some "QUJD" ∧
    b64decode "QUJD" = some [65, 66, 67] ∧
    dictLookup (imageName ([] : ImageStore).length) ([] : ImageStore) = none ∧
    (∃ dd₁ store₁,
      store_images ⟨some [("image/png", "QUJD")], none⟩ ([] : ImageStore) =
        some (dd₁, store₁) ∧
      dd₁.data = some (dictInsert "image/png"
        ("http://localhost:8000/images/" ++ imageName ([] : ImageStore).length)
        [("image/png", "QUJD")]) ∧
      dictLookup "image/png" (dictInsert "image/png"
        ("http://localhost:8000/images/" ++ imageName ([] : ImageStore).length)
        [("image/png", "QUJD")]) =
        some ("http://localhost:8000/images/" ++ imageName ([] : ImageStore).length) ∧
      store₁ = ([] : ImageStore) ++ [(imageName ([] : ImageStore).length, [65, 66, 67])] ∧
      get_image (imageName ([] : ImageStore).length)
          store₁ = ImageResponse.ok [65, 66, 67]) :=
  ⟨rfl, by decide, by decide, rfl,
   store_images_url_substitution ⟨some [("image/png", "QUJD")], none⟩ []
    [("image/png", "QUJD")] "QUJD" [65, 66, 67] rfl (by decide) (by decide) rfl⟩

/-- C4: starting from the empty image store, registering N image/png
payloads in sequence through the Display Serializer yields exactly the
names image-0.png through image-(N-1).png in insertion order, pairwise
distinct, and fetching each name from the resulting store returns exactly
the base64-decoded bytes of the payload registered under it. -/
theorem register_images_sequence (ps : List String)
    (hv : ∀ p ∈ ps, (b64decode p).isSome) :
    ∃ st : ImageStore, registerImages ps [] = some st ∧
      st.map Prod.fst = (List.range ps.length).map imageName ∧
      (st.map Prod.fst).Nodup ∧
      ∀ i (h : i < ps.length), ∃ bytes,
        b64decode (ps.get ⟨i, h⟩) = some bytes ∧
        get_image (imageName i) st = ImageResponse.ok bytes := by
  have hreg := registerImages_canonical ps [] hv
  simp only [List.nil_append] at hreg
  refine ⟨canonicalFrom 0 (ps.map fun p => (b64decode p).getD []), hreg, ?_, ?_, ?_⟩
  · rw [canonicalFrom_keys, List.range_eq_range']
    simp
  · rw [canonicalFrom_keys]
    apply List.Nodup.map imageName_injective
    exact List.nodup_range' 0 _
  · intro i h
    refine ⟨(b64decode (ps.get ⟨i, h⟩)).getD [], ?_, ?_⟩
    · obtain ⟨bytes, hb⟩ :=
        Option.isSome_iff_exists.mp (hv _ (List.get_mem ps i h))
      rw [hb]
      rfl
    · unfold get_image
      have hl := canonicalFrom_lookup 0 i (ps.map fun p => (b64decode p).getD [])
        (by simpa using h)
      rw [Nat.zero_add] at hl
      simp only [hl, List.get?_eq_getElem?, List.getElem?_map,
        List.getElem?_eq_getElem h, Option.map_some]
      rfl

theorem register_images_sequence_witness :
    (∀ p ∈ ["QUJD", "RA=="], (b64decode p).isSome) ∧
    (∃ st : ImageStore, registerImages ["QUJD", "RA=="] [] = some st ∧
      st.map Prod.fst = (List.range (["QUJD", "RA=="] : List String).length).map imageName ∧
      (st.map Prod.fst).Nodup ∧
      ∀ i (h : i < (["QUJD", "RA=="] : List String).length), ∃ bytes,
        b64decode ((["QUJD", "RA=="] : List String).get ⟨i, h⟩) = some bytes ∧
        get_image (imageName i) st = ImageResponse.ok bytes) :=
  ⟨by decide, register_images_sequence ["QUJD", "RA=="] (by decide)⟩

end IPyServe
